import Mathlib

/-
Verification of the tracker-entry state reduction of
src/base/bittorrent/trackerentry.cpp: per-endpoint announce state is
collapsed into one tracker status, one deduplicated message list and
aggregate swarm counters.  The C++ code is shallowly embedded below;
each definition mirrors one source function.
-/

set_option autoImplicit false

/-- Models TrackerEntry::Status from trackerentry.h: the four aggregate
tracker states. -/
inductive TrackerEntry.Status where
  | NotContacted
  | Working
  | Updating
  | NotWorking
  deriving DecidableEq, Repr

/-- Models the fields of lt::announce_endpoint that trackerentry.cpp reads.
The native is_working() accessor (fails == 0 in libtorrent) is modelled as
the stored flag isWorking; last_error.message() is modelled as the stored
string lastErrorMessage.  Counters are C ints, modelled as Int with the -1
sentinel meaning unknown. -/
structure AnnounceEndpoint where
  scrapeComplete : Int
  scrapeIncomplete : Int
  scrapeDownloaded : Int
  message : String
  lastErrorMessage : String
  updating : Bool
  isWorking : Bool
  deriving DecidableEq, Repr

/-- Models TrackerEntry::Endpoint::status (trackerentry.cpp:77-84): updating
wins, then not-working, else working. -/
def AnnounceEndpoint.status (e : AnnounceEndpoint) : TrackerEntry.Status :=
  if e.updating then .Updating
  else if e.isWorking = false then .NotWorking
  else .Working

/-- Models the fields of lt::announce_entry that TrackerEntry wraps (url,
tier, verified) together with its endpoint list.  The native tier is
modelled per the specification as an integer field. -/
structure TrackerEntry where
  url : String
  tier : Int
  verified : Bool
  endpoints : List AnnounceEndpoint
  deriving DecidableEq, Repr

/-- Loop body of TrackerEntry::status (trackerentry.cpp:128-150): scan the
endpoint list left to right carrying the numFailed counter; return Updating
or (when verified) Working immediately, and after the loop report NotWorking
exactly when every endpoint was counted as failed and there was at least
one. -/
def TrackerEntry.statusAux (verified : Bool) (total : Nat) :
    List AnnounceEndpoint → Nat → TrackerEntry.Status
  | [], numFailed =>
    if numFailed = total ∧ numFailed ≠ 0 then .NotWorking else .NotContacted
  | e :: rest, numFailed =>
    let s := e.status
    if s = .Updating then .Updating
    else if s = .NotWorking then TrackerEntry.statusAux verified total rest (numFailed + 1)
    else if verified = false then TrackerEntry.statusAux verified total rest numFailed
    else if s = .Working then .Working
    else TrackerEntry.statusAux verified total rest numFailed

/-- Models TrackerEntry::status (trackerentry.cpp:128-150). -/
def TrackerEntry.status (t : TrackerEntry) : TrackerEntry.Status :=
  TrackerEntry.statusAux t.verified t.endpoints.length t.endpoints 0

/-- Whitespace characters removed by QString::trimmed for the ASCII range
used here. -/
def isQSpace (c : Char) : Bool :=
  c = ' ' ∨ c = '\t' ∨ c = '\n' ∨ c = '\r' ∨ c = '\x0b' ∨ c = '\x0c'

/-- Models QString::trimmed: drop leading and trailing whitespace. -/
def qtrim (s : String) : String :=
  String.mk (((s.data.dropWhile isQSpace).reverse.dropWhile isQSpace).reverse)

/-- Models the addMessage lambda of TrackerEntry::messages
(trackerentry.cpp:106-111): append the trimmed message when it is non-empty
and not already present. -/
def addMessage (messages : List String) (msg : String) : List String :=
  let message := qtrim msg
  if message ≠ "" ∧ message ∉ messages then messages ++ [message] else messages

/-- Models TrackerEntry::messages (trackerentry.cpp:101-121): collect the
endpoint messages; when none survive and the tracker is NotWorking, collect
the endpoint error texts instead. -/
def TrackerEntry.messages (t : TrackerEntry) : List String :=
  if t.endpoints.foldl (fun acc e => addMessage acc e.message) [] = [] ∧
      t.status = .NotWorking then
    t.endpoints.foldl (fun acc e => addMessage acc e.lastErrorMessage) []
  else
    t.endpoints.foldl (fun acc e => addMessage acc e.message) []

/-- Models TrackerEntry::setTier (trackerentry.cpp:164-167). -/
def TrackerEntry.setTier (t : TrackerEntry) (value : Int) : TrackerEntry :=
  { t with tier := value }

/-- Models TrackerEntry::numSeeds (trackerentry.cpp:169-175): fold of
std::max over the endpoints starting from the -1 sentinel. -/
def TrackerEntry.numSeeds (t : TrackerEntry) : Int :=
  t.endpoints.foldl (fun value e => max value e.scrapeComplete) (-1)

/-- Models TrackerEntry::numLeeches (trackerentry.cpp:177-183). -/
def TrackerEntry.numLeeches (t : TrackerEntry) : Int :=
  t.endpoints.foldl (fun value e => max value e.scrapeIncomplete) (-1)

/-- Models TrackerEntry::numDownloaded (trackerentry.cpp:185-191). -/
def TrackerEntry.numDownloaded (t : TrackerEntry) : Int :=
  t.endpoints.foldl (fun value e => max value e.scrapeDownloaded) (-1)

/-- Lowercase an ASCII letter, identity otherwise (Char.toLower). -/
def lowerAscii (c : Char) : Char := c.toLower

/-- Split a character list at the first "://", returning the scheme part and
the remainder; none when no "://" occurs. -/
def splitScheme : List Char → Option (List Char × List Char)
  | [] => none
  | ':' :: '/' :: '/' :: rest => some ([], rest)
  | c :: rest =>
    match splitScheme rest with
    | none => none
    | some (sch, tail) => some (c :: sch, tail)

/-- Split a character list at the first '/', keeping the slash with the
second component. -/
def splitHost : List Char → List Char × List Char
  | [] => ([], [])
  | '/' :: rest => ([], '/' :: rest)
  | c :: rest =>
    let p := splitHost rest
    (c :: p.1, p.2)

/-- Models the aspect of Qt QUrl parsing that its equality depends on for
URLs of the shape scheme://host/path: QUrl stores the scheme and the host
lowercased, so two such QUrls compare equal exactly when the URLs agree
after lowercasing those two components.  Strings without "://" are kept
verbatim. -/
def qurlNormalize (s : String) : String :=
  match splitScheme s.data with
  | none => s
  | some (sch, rest) =>
    let hp := splitHost rest
    String.mk (sch.map lowerAscii ++ ':' :: '/' :: '/' :: hp.1.map lowerAscii ++ hp.2)

/-- Models BitTorrent::operator== on TrackerEntry (trackerentry.cpp:198-202):
tiers equal and QUrl(left.url()) == QUrl(right.url()). -/
def trackerEq (left right : TrackerEntry) : Bool :=
  left.tier == right.tier && qurlNormalize left.url == qurlNormalize right.url

/-- Models the Qt 5 string hash (qhash.cpp, portable implementation): over
the UTF-16 code units, h := 31 * h + unit, on 32-bit unsigned arithmetic,
starting from the seed. -/
def qHashString (s : String) (seed : Nat) : Nat :=
  s.data.foldl (fun h c => (31 * h + c.toNat) % 4294967296) (seed % 4294967296)

/-- Models the Qt 5 hash of an int: uint(key) XOR seed. -/
def qHashInt (key : Int) (seed : Nat) : Nat :=
  (key % 4294967296).toNat ^^^ seed

/-- Models BitTorrent::qHash on TrackerEntry (trackerentry.cpp:204-207):
qHash(url, seed) XOR qHash(tier). -/
def qHashTracker (key : TrackerEntry) (seed : Nat) : Nat :=
  qHashString key.url seed ^^^ qHashInt key.tier 0

/-- Spec-side helper: append a string unless it is already present
(first-occurrence deduplication step). -/
def insertUnique (acc : List String) (m : String) : List String :=
  if m ∈ acc then acc else acc ++ [m]

/-- Spec-side helper: first-occurrence deduplication of a string list. -/
def dedupFirst (l : List String) : List String :=
  l.foldl insertUnique []

/-- Spec-side definition (section 4.3 of the specification): the trimmed
non-empty strings of the list, in order, deduplicated keeping the first
occurrence. -/
def collectMessages (l : List String) : List String :=
  dedupFirst ((l.map qtrim).filter (fun m => m ≠ ""))

/-- Functioning endpoint, not negotiating: reports per-endpoint Working. -/
def epFunctioning : AnnounceEndpoint :=
  { scrapeComplete := -1, scrapeIncomplete := -1, scrapeDownloaded := -1
    message := "", lastErrorMessage := "", updating := false, isWorking := true }

/-- Negotiating endpoint: an announce is in flight. -/
def epNegotiating : AnnounceEndpoint :=
  { scrapeComplete := -1, scrapeIncomplete := -1, scrapeDownloaded := -1
    message := "", lastErrorMessage := "", updating := true, isWorking := false }

/-- Failed endpoint whose last transport error reads "timeout". -/
def epTimeout : AnnounceEndpoint :=
  { scrapeComplete := -1, scrapeIncomplete := -1, scrapeDownloaded := -1
    message := "", lastErrorMessage := "timeout", updating := false, isWorking := false }

/-- Failed endpoint whose last transport error reads "refused". -/
def epRefused : AnnounceEndpoint :=
  { scrapeComplete := -1, scrapeIncomplete := -1, scrapeDownloaded := -1
    message := "", lastErrorMessage := "refused", updating := false, isWorking := false }

/-- Verified tracker whose first endpoint already functions and whose second
endpoint is still negotiating. -/
def entryWorkingThenNegotiating : TrackerEntry :=
  { url := "http://a.example/announce", tier := 0, verified := true
    endpoints := [epFunctioning, epNegotiating] }

/-- Verified tracker with one failed endpoint carrying only error text. -/
def entryErrorOnly : TrackerEntry :=
  { url := "http://a.example/announce", tier := 0, verified := true
    endpoints := [epTimeout] }

/-- Verified tracker with two failed endpoints carrying only error texts. -/
def entryTwoErrors : TrackerEntry :=
  { url := "http://a.example/announce", tier := 0, verified := true
    endpoints := [epTimeout, epRefused] }

/-- Tracker whose URL host is written with capital letters. -/
def entryUpperHost : TrackerEntry :=
  { url := "http://A.example/announce", tier := 0, verified := false, endpoints := [] }

/-- Tracker with the same URL written all lowercase. -/
def entryLowerHost : TrackerEntry :=
  { url := "http://a.example/announce", tier := 0, verified := false, endpoints := [] }

/-- Same URL as entryLowerHost but tier 1. -/
def entryTierOne : TrackerEntry :=
  { url := "http://a.example/announce", tier := 1, verified := false, endpoints := [] }

/-- Tracker whose endpoints report seed counts -1, 3, -1. -/
def entryCountsKnown : TrackerEntry :=
  { url := "http://a.example/announce", tier := 0, verified := false
    endpoints :=
      [ { epFunctioning with scrapeComplete := -1, scrapeIncomplete := -1, scrapeDownloaded := -1 }
      , { epFunctioning with scrapeComplete := 3, scrapeIncomplete := 3, scrapeDownloaded := 3 }
      , { epFunctioning with scrapeComplete := -1, scrapeIncomplete := -1, scrapeDownloaded := -1 } ] }

/-- Tracker whose two endpoints both report unknown counters. -/
def entryCountsUnknown : TrackerEntry :=
  { url := "http://a.example/announce", tier := 0, verified := false
    endpoints := [epFunctioning, epNegotiating] }

/-- Verified tracker whose first endpoint is negotiating and whose second
endpoint is functioning. -/
def entryNegotiatingFirst : TrackerEntry :=
  { url := "http://a.example/announce", tier := 0, verified := true
    endpoints := [epNegotiating, epFunctioning] }

/-- Verified tracker with a failed endpoint followed by a functioning one. -/
def entryFailedThenFunctioning : TrackerEntry :=
  { url := "http://a.example/announce", tier := 0, verified := true
    endpoints := [epTimeout, epFunctioning] }

/-- Unverified tracker whose only endpoint is functioning. -/
def entryUnverifiedFunctioning : TrackerEntry :=
  { url := "http://a.example/announce", tier := 0, verified := false
    endpoints := [epFunctioning] }

/-- Verified tracker whose only endpoint carries a whitespace-padded
message. -/
def entryPaddedMessage : TrackerEntry :=
  { url := "http://a.example/announce", tier := 0, verified := true
    endpoints := [{ epFunctioning with message := " alpha " }] }

theorem ep_status_of_updating {e : AnnounceEndpoint} (h : e.updating = true) :
    e.status = .Updating := by
  simp [AnnounceEndpoint.status, h]

theorem ep_status_of_failed {e : AnnounceEndpoint} (h1 : e.updating = false)
    (h2 : e.isWorking = false) : e.status = .NotWorking := by
  simp [AnnounceEndpoint.status, h1, h2]

theorem ep_status_of_working {e : AnnounceEndpoint} (h1 : e.updating = false)
    (h2 : e.isWorking = true) : e.status = .Working := by
  simp [AnnounceEndpoint.status, h1, h2]

theorem ep_status_eq_updating_iff {e : AnnounceEndpoint} :
    e.status = .Updating ↔ e.updating = true := by
  unfold AnnounceEndpoint.status
  cases h : e.updating <;> cases h2 : e.isWorking <;> simp

theorem ep_status_eq_notWorking_iff {e : AnnounceEndpoint} :
    e.status = .NotWorking ↔ (e.updating = false ∧ e.isWorking = false) := by
  unfold AnnounceEndpoint.status
  cases h : e.updating <;> cases h2 : e.isWorking <;> simp

theorem ep_status_eq_working_iff {e : AnnounceEndpoint} :
    e.status = .Working ↔ (e.updating = false ∧ e.isWorking = true) := by
  unfold AnnounceEndpoint.status
  cases h : e.updating <;> cases h2 : e.isWorking <;> simp

theorem statusAux_nil (v : Bool) (total n : Nat) :
    TrackerEntry.statusAux v total [] n =
      if n = total ∧ n ≠ 0 then .NotWorking else .NotContacted := rfl

theorem statusAux_cons_updating (v : Bool) (total n : Nat) {e : AnnounceEndpoint}
    (l : List AnnounceEndpoint) (h : e.updating = true) :
    TrackerEntry.statusAux v total (e :: l) n = .Updating := by
  simp [TrackerEntry.statusAux, ep_status_of_updating h]

theorem statusAux_cons_failed (v : Bool) (total n : Nat) {e : AnnounceEndpoint}
    (l : List AnnounceEndpoint) (h1 : e.updating = false) (h2 : e.isWorking = false) :
    TrackerEntry.statusAux v total (e :: l) n = TrackerEntry.statusAux v total l (n + 1) := by
  simp [TrackerEntry.statusAux, ep_status_of_failed h1 h2]

theorem statusAux_cons_skip (total n : Nat) {e : AnnounceEndpoint}
    (l : List AnnounceEndpoint) (h1 : e.updating = false) (h2 : e.isWorking = true) :
    TrackerEntry.statusAux false total (e :: l) n = TrackerEntry.statusAux false total l n := by
  simp [TrackerEntry.statusAux, ep_status_of_working h1 h2]

theorem statusAux_cons_working (total n : Nat) {e : AnnounceEndpoint}
    (l : List AnnounceEndpoint) (h1 : e.updating = false) (h2 : e.isWorking = true) :
    TrackerEntry.statusAux true total (e :: l) n = .Working := by
  simp [TrackerEntry.statusAux, ep_status_of_working h1 h2]

theorem statusAux_updating_of_split (v : Bool) (total : Nat) {e : AnnounceEndpoint}
    (l1 l2 : List AnnounceEndpoint) (n : Nat) (he : e.updating = true)
    (hpre : ∀ x ∈ l1, x.updating = true ∨ x.isWorking = false ∨ v = false) :
    TrackerEntry.statusAux v total (l1 ++ e :: l2) n = .Updating := by
  induction l1 generalizing n with
  | nil => exact statusAux_cons_updating v total n l2 he
  | cons x xs ih =>
    have hx := hpre x (List.mem_cons_self x xs)
    have hrest : ∀ y ∈ xs, y.updating = true ∨ y.isWorking = false ∨ v = false :=
      fun y hy => hpre y (List.mem_cons_of_mem x hy)
    rcases hx with hupd | hfail | hv
    · exact statusAux_cons_updating v total n (xs ++ e :: l2) hupd
    · cases hu : x.updating with
      | true => exact statusAux_cons_updating v total n (xs ++ e :: l2) hu
      | false =>
        rw [List.cons_append, statusAux_cons_failed v total n (xs ++ e :: l2) hu hfail]
        exact ih (n + 1) hrest
    · subst hv
      cases hu : x.updating with
      | true => exact statusAux_cons_updating false total n (xs ++ e :: l2) hu
      | false =>
        cases hw : x.isWorking with
        | false =>
          rw [List.cons_append, statusAux_cons_failed false total n (xs ++ e :: l2) hu hw]
          exact ih (n + 1) hrest
        | true =>
          rw [List.cons_append, statusAux_cons_skip total n (xs ++ e :: l2) hu hw]
          exact ih n hrest

theorem statusAux_working_of_functioning (total : Nat) (l : List AnnounceEndpoint) (n : Nat)
    (hupd : ∀ e ∈ l, e.updating = false) (hex : ∃ e ∈ l, e.isWorking = true) :
    TrackerEntry.statusAux true total l n = .Working := by
  induction l generalizing n with
  | nil => simp at hex
  | cons x xs ih =>
    have hxu : x.updating = false := hupd x (List.mem_cons_self x xs)
    have hrest : ∀ e ∈ xs, e.updating = false :=
      fun e he => hupd e (List.mem_cons_of_mem x he)
    cases hw : x.isWorking with
    | true => exact statusAux_cons_working total n xs hxu hw
    | false =>
      rw [statusAux_cons_failed true total n xs hxu hw]
      rcases hex with ⟨e, hmem, hework⟩
      rcases List.mem_cons.mp hmem with rfl | hmem2
      · rw [hw] at hework; exact absurd hework (by simp)
      · exact ih (n + 1) hrest ⟨e, hmem2, hework⟩

theorem statusAux_unverified_ne_working (total : Nat) (l : List AnnounceEndpoint) (n : Nat) :
    TrackerEntry.statusAux false total l n ≠ .Working := by
  induction l generalizing n with
  | nil =>
    rw [statusAux_nil]
    split <;> simp
  | cons x xs ih =>
    cases hu : x.updating with
    | true => rw [statusAux_cons_updating false total n xs hu]; simp
    | false =>
      cases hw : x.isWorking with
      | false => rw [statusAux_cons_failed false total n xs hu hw]; exact ih (n + 1)
      | true => rw [statusAux_cons_skip total n xs hu hw]; exact ih n

theorem statusAux_all_failed (v : Bool) (total : Nat) (l : List AnnounceEndpoint) (n : Nat)
    (hall : ∀ e ∈ l, e.updating = false ∧ e.isWorking = false)
    (hsum : n + l.length = total) (htot : total ≠ 0) :
    TrackerEntry.statusAux v total l n = .NotWorking := by
  induction l generalizing n with
  | nil =>
    rw [statusAux_nil]
    simp only [List.length_nil, Nat.add_zero] at hsum
    simp [hsum, htot]
  | cons x xs ih =>
    have hx := hall x (List.mem_cons_self x xs)
    rw [statusAux_cons_failed v total n xs hx.1 hx.2]
    apply ih (n + 1) (fun e he => hall e (List.mem_cons_of_mem x he))
    simp only [List.length_cons] at hsum
    omega

theorem statusAux_notWorking_inv (v : Bool) (total : Nat) (l : List AnnounceEndpoint) (n : Nat)
    (hle : n + l.length ≤ total)
    (hres : TrackerEntry.statusAux v total l n = .NotWorking) :
    (∀ e ∈ l, e.updating = false ∧ e.isWorking = false) ∧ n + l.length = total ∧ total ≠ 0 := by
  induction l generalizing n with
  | nil =>
    rw [statusAux_nil] at hres
    by_cases h : n = total ∧ n ≠ 0
    · simp only [List.length_nil, Nat.add_zero]
      exact ⟨by simp, h.1, by omega⟩
    · rw [if_neg h] at hres; exact absurd hres (by simp)
  | cons x xs ih =>
    cases hu : x.updating with
    | true =>
      rw [statusAux_cons_updating v total n xs hu] at hres
      exact absurd hres (by simp)
    | false =>
      cases hw : x.isWorking with
      | false =>
        rw [statusAux_cons_failed v total n xs hu hw] at hres
        have hle2 : (n + 1) + xs.length ≤ total := by
          simp only [List.length_cons] at hle; omega
        obtain ⟨hall, hsum, htot⟩ := ih (n + 1) hle2 hres
        refine ⟨?_, by simp only [List.length_cons]; omega, htot⟩
        intro e he
        rcases List.mem_cons.mp he with rfl | hmem
        · exact ⟨hu, hw⟩
        · exact hall e hmem
      | true =>
        cases hv : v with
        | false =>
          subst hv
          rw [statusAux_cons_skip total n xs hu hw] at hres
          have hle2 : n + xs.length ≤ total := by
            simp only [List.length_cons] at hle; omega
          obtain ⟨_, hsum, _⟩ := ih n hle2 hres
          simp only [List.length_cons] at hle
          omega
        | true =>
          subst hv
          rw [statusAux_cons_working total n xs hu hw] at hres
          exact absurd hres (by simp)

theorem statusAux_early_of_updating_mem (v : Bool) (total : Nat)
    (l : List AnnounceEndpoint) (n : Nat) (hex : ∃ e ∈ l, e.updating = true) :
    TrackerEntry.statusAux v total l n = .Updating ∨
      TrackerEntry.statusAux v total l n = .Working := by
  induction l generalizing n with
  | nil => simp at hex
  | cons x xs ih =>
    cases hu : x.updating with
    | true => exact Or.inl (statusAux_cons_updating v total n xs hu)
    | false =>
      have hex2 : ∃ e ∈ xs, e.updating = true := by
        rcases hex with ⟨e, hmem, he⟩
        rcases List.mem_cons.mp hmem with rfl | hmem2
        · rw [hu] at he; exact absurd he (by simp)
        · exact ⟨e, hmem2, he⟩
      cases hw : x.isWorking with
      | false =>
        rw [statusAux_cons_failed v total n xs hu hw]
        exact ih (n + 1) hex2
      | true =>
        cases hv : v with
        | false =>
          subst hv
          rw [statusAux_cons_skip total n xs hu hw]
          exact ih n hex2
        | true =>
          subst hv
          exact Or.inr (statusAux_cons_working total n xs hu hw)

theorem statusAux_early_of_verified_functioning (total : Nat)
    (l : List AnnounceEndpoint) (n : Nat)
    (hex : ∃ e ∈ l, e.updating = false ∧ e.isWorking = true) :
    TrackerEntry.statusAux true total l n = .Updating ∨
      TrackerEntry.statusAux true total l n = .Working := by
  induction l generalizing n with
  | nil => simp at hex
  | cons x xs ih =>
    cases hu : x.updating with
    | true => exact Or.inl (statusAux_cons_updating true total n xs hu)
    | false =>
      cases hw : x.isWorking with
      | true => exact Or.inr (statusAux_cons_working total n xs hu hw)
      | false =>
        rw [statusAux_cons_failed true total n xs hu hw]
        apply ih (n + 1)
        rcases hex with ⟨e, hmem, he⟩
        rcases List.mem_cons.mp hmem with rfl | hmem2
        · rw [hw] at he; exact absurd he.2 (by simp)
        · exact ⟨e, hmem2, he⟩

theorem statusAux_notContacted_of_short (total : Nat) (l : List AnnounceEndpoint) (n : Nat)
    (hupd : ∀ e ∈ l, e.updating = false) (hlt : n + l.length < total) :
    TrackerEntry.statusAux false total l n = .NotContacted := by
  induction l generalizing n with
  | nil =>
    rw [statusAux_nil]
    simp only [List.length_nil, Nat.add_zero] at hlt
    rw [if_neg]
    omega
  | cons x xs ih =>
    have hxu : x.updating = false := hupd x (List.mem_cons_self x xs)
    have hrest : ∀ e ∈ xs, e.updating = false :=
      fun e he => hupd e (List.mem_cons_of_mem x he)
    simp only [List.length_cons] at hlt
    cases hw : x.isWorking with
    | false =>
      rw [statusAux_cons_failed false total n xs hxu hw]
      exact ih (n + 1) hrest (by omega)
    | true =>
      rw [statusAux_cons_skip total n xs hxu hw]
      exact ih n hrest (by omega)

theorem statusAux_notContacted_of_unverified_success (total : Nat)
    (l : List AnnounceEndpoint) (n : Nat)
    (hupd : ∀ e ∈ l, e.updating = false) (hex : ∃ e ∈ l, e.isWorking = true)
    (hle : n + l.length ≤ total) :
    TrackerEntry.statusAux false total l n = .NotContacted := by
  induction l generalizing n with
  | nil => simp at hex
  | cons x xs ih =>
    have hxu : x.updating = false := hupd x (List.mem_cons_self x xs)
    have hrest : ∀ e ∈ xs, e.updating = false :=
      fun e he => hupd e (List.mem_cons_of_mem x he)
    simp only [List.length_cons] at hle
    cases hw : x.isWorking with
    | true =>
      rw [statusAux_cons_skip total n xs hxu hw]
      exact statusAux_notContacted_of_short total xs n hrest (by omega)
    | false =>
      rw [statusAux_cons_failed false total n xs hxu hw]
      rcases hex with ⟨e, hmem, he⟩
      rcases List.mem_cons.mp hmem with rfl | hmem2
      · rw [hw] at he; exact absurd he (by simp)
      · exact ih (n + 1) hrest ⟨e, hmem2, he⟩ (by omega)

theorem status_empty_endpoints (t : TrackerEntry) (h : t.endpoints = []) :
    t.status = .NotContacted := by
  unfold TrackerEntry.status
  rw [h]
  rw [statusAux_nil]
  simp

theorem foldl_addMessage_eq (ms acc : List String) :
    ms.foldl addMessage acc =
      ((ms.map qtrim).filter (fun m => m ≠ "")).foldl insertUnique acc := by
  induction ms generalizing acc with
  | nil => rfl
  | cons m rest ih =>
    simp only [List.foldl_cons, List.map_cons, List.filter_cons]
    by_cases h : qtrim m = ""
    · have hstep : addMessage acc m = acc := by simp [addMessage, h]
      rw [hstep, ih]
      simp [h]
    · have hstep : addMessage acc m = insertUnique acc (qtrim m) := by
        by_cases hmem : qtrim m ∈ acc
        · simp [addMessage, insertUnique, hmem]
        · simp [addMessage, insertUnique, h, hmem]
      rw [hstep, ih]
      simp [h]

theorem foldl_addMessage_clean (ms acc : List String) (hnd : acc.Nodup)
    (hne : "" ∉ acc) :
    (ms.foldl addMessage acc).Nodup ∧ "" ∉ ms.foldl addMessage acc := by
  induction ms generalizing acc with
  | nil => exact ⟨hnd, hne⟩
  | cons m rest ih =>
    simp only [List.foldl_cons]
    by_cases hc : qtrim m ≠ "" ∧ qtrim m ∉ acc
    · have hstep : addMessage acc m = acc ++ [qtrim m] := by
        simp [addMessage, hc.1, hc.2]
      rw [hstep]
      apply ih
      · refine hnd.append (List.nodup_singleton _) ?_
        intro a ha hb
        rw [List.mem_singleton] at hb
        subst hb
        exact hc.2 ha
      · intro hmem
        rcases List.mem_append.mp hmem with h1 | h1
        · exact hne h1
        · rw [List.mem_singleton] at h1
          exact hc.1 h1.symm
    · have hstep : addMessage acc m = acc := by
        simp only [addMessage]
        rw [if_neg hc]
      rw [hstep]
      exact ih acc hnd hne

theorem foldl_max_init_le (l : List Int) (a : Int) : a ≤ l.foldl max a := by
  induction l generalizing a with
  | nil => exact le_refl a
  | cons x xs ih =>
    simp only [List.foldl_cons]
    exact le_trans (le_max_left a x) (ih (max a x))

theorem foldl_max_le_of_mem (l : List Int) (a x : Int) (h : x ∈ l) :
    x ≤ l.foldl max a := by
  induction l generalizing a with
  | nil => simp at h
  | cons y ys ih =>
    simp only [List.foldl_cons]
    rcases List.mem_cons.mp h with rfl | hmem
    · exact le_trans (le_max_right a x) (foldl_max_init_le ys (max a x))
    · exact ih (max a y) hmem

theorem foldl_max_eq_init_or_mem (l : List Int) (a : Int) :
    l.foldl max a = a ∨ l.foldl max a ∈ l := by
  induction l generalizing a with
  | nil => exact Or.inl rfl
  | cons x xs ih =>
    simp only [List.foldl_cons]
    rcases ih (max a x) with h | h
    · rw [h]
      rcases max_choice a x with h2 | h2
      · exact Or.inl h2
      · exact Or.inr (by rw [h2]; exact List.mem_cons_self x xs)
    · exact Or.inr (List.mem_cons_of_mem x h)

theorem foldl_counter_spec (f : AnnounceEndpoint → Int) (l : List AnnounceEndpoint) :
    -1 ≤ l.foldl (fun a e => max a (f e)) (-1) ∧
      (∀ e ∈ l, f e ≤ l.foldl (fun a e => max a (f e)) (-1)) ∧
      (l.foldl (fun a e => max a (f e)) (-1) = -1 ∨
        ∃ e ∈ l, l.foldl (fun a e => max a (f e)) (-1) = f e) := by
  have hmap : l.foldl (fun a e => max a (f e)) (-1) = (l.map f).foldl max (-1) :=
    (List.foldl_map f max l (-1)).symm
  refine ⟨?_, ?_, ?_⟩
  · rw [hmap]; exact foldl_max_init_le _ _
  · intro e he
    rw [hmap]
    exact foldl_max_le_of_mem _ _ _ (List.mem_map_of_mem f he)
  · rw [hmap]
    rcases foldl_max_eq_init_or_mem (l.map f) (-1) with h | h
    · exact Or.inl h
    · rcases List.mem_map.mp h with ⟨e, he, hfe⟩
      exact Or.inr ⟨e, he, hfe.symm⟩

/-- C1: hashing is not congruent with equality.  The two entries below have
equal tier and QUrl-equal URLs (QUrl lowercases the host while parsing), so
operator== holds; yet qHash hashes the raw URL string, so their hashes
differ at seed 0.  The code therefore violates the requirement that equal
entries hash identically. -/
theorem qHash_breaks_equality_on_normalized_urls :
    trackerEq entryUpperHost entryLowerHost = true ∧
      qHashTracker entryUpperHost 0 ≠ qHashTracker entryLowerHost 0 := by
  exact ⟨by decide, by decide⟩

/-- C2 counterexample: a verified tracker whose endpoints are [functioning,
negotiating] contains a negotiating endpoint yet reports Working, because the
scan returns Working at the first verified functioning endpoint before it
sees the negotiating one.  So negotiating does not preempt everything. -/
theorem status_not_updating_despite_negotiating :
    epNegotiating ∈ entryNegotiatingFirst.endpoints ∧
      epNegotiating ∈ entryWorkingThenNegotiating.endpoints ∧
      epNegotiating.updating = true ∧
      TrackerEntry.status entryWorkingThenNegotiating = .Working := by
  exact ⟨by decide, by decide, by decide, by decide⟩

/-- C2 (amended): status() returns Updating whenever some endpoint is
negotiating and, in case the tracker is verified, no functioning endpoint
precedes the first such negotiating endpoint in the scan order. -/
theorem status_updating_of_negotiating_unpreceded (t : TrackerEntry)
    (l1 l2 : List AnnounceEndpoint) (e : AnnounceEndpoint)
    (hsplit : t.endpoints = l1 ++ e :: l2) (he : e.status = .Updating)
    (hpre : ∀ x ∈ l1, ¬(t.verified = true ∧ x.status = .Working)) :
    t.status = .Updating := by
  unfold TrackerEntry.status
  rw [hsplit]
  apply statusAux_updating_of_split t.verified _ l1 l2 0 (ep_status_eq_updating_iff.mp he)
  intro x hx
  have h := hpre x hx
  cases hb : t.verified with
  | false => exact Or.inr (Or.inr rfl)
  | true =>
    cases hu : x.updating with
    | true => exact Or.inl rfl
    | false =>
      cases hw : x.isWorking with
      | false => exact Or.inr (Or.inl rfl)
      | true => exact absurd ⟨hb, ep_status_of_working hu hw⟩ h

/-- C2 witness: the specification scenario [negotiating, functioning] with
verified true reports Updating. -/
theorem status_updating_witness :
    TrackerEntry.status entryNegotiatingFirst = .Updating :=
  status_updating_of_negotiating_unpreceded entryNegotiatingFirst
    [] [epFunctioning] epNegotiating rfl (by decide) (by decide)

/-- C9: operator== holds exactly when the tiers are equal and the URLs agree
after QUrl normalization; in particular entries whose URL strings differ only
in host capitalization are equal, and a tier mismatch with identical URLs is
not equal. -/
theorem equality_is_tier_and_normalized_url :
    (∀ left right : TrackerEntry,
      trackerEq left right = true ↔
        (left.tier = right.tier ∧ qurlNormalize left.url = qurlNormalize right.url)) ∧
    (trackerEq entryUpperHost entryLowerHost = true ∧
      entryUpperHost.url ≠ entryLowerHost.url) ∧
    trackerEq entryLowerHost entryTierOne = false := by
  refine ⟨?_, ⟨by decide, by decide⟩, by decide⟩
  intro l r
  simp [trackerEq, Bool.and_eq_true, beq_iff_eq]

/-- C9 witness: the iff applied at the two host-capitalization variants. -/
theorem equality_witness :
    trackerEq entryUpperHost entryLowerHost = true :=
  (equality_is_tier_and_normalized_url.1 entryUpperHost entryLowerHost).mpr
    ⟨by decide, by decide⟩

/-- C10: setTier only touches the tier: the url, verified flag, endpoint
list, and every derived reduction (status, messages, counters) are
unchanged, while tier() afterwards returns the assigned value. -/
theorem setTier_frame (t : TrackerEntry) (v : Int) :
    (t.setTier v).tier = v ∧ (t.setTier v).url = t.url ∧
    (t.setTier v).verified = t.verified ∧
    (t.setTier v).endpoints = t.endpoints ∧
    (t.setTier v).status = t.status ∧
    (t.setTier v).messages = t.messages ∧
    (t.setTier v).numSeeds = t.numSeeds ∧
    (t.setTier v).numLeeches = t.numLeeches ∧
    (t.setTier v).numDownloaded = t.numDownloaded :=
  ⟨rfl, rfl, rfl, rfl, rfl, rfl, rfl, rfl, rfl⟩

/-- C3: when the tracker is verified, no endpoint is negotiating and some
endpoint is functioning, status() is Working; and an unverified tracker never
reports Working, whatever its endpoints do. -/
theorem status_working_requires_verified (t : TrackerEntry) :
    (t.verified = true → (∀ e ∈ t.endpoints, e.status ≠ .Updating) →
      (∃ e ∈ t.endpoints, e.isWorking = true) → t.status = .Working) ∧
    (t.verified = false → t.status ≠ .Working) := by
  constructor
  · intro hv hupd hex
    unfold TrackerEntry.status
    rw [hv]
    apply statusAux_working_of_functioning _ _ _ ?_ hex
    intro e he
    cases hu : e.updating with
    | false => rfl
    | true => exact absurd (ep_status_of_updating hu) (hupd e he)
  · intro hv
    unfold TrackerEntry.status
    rw [hv]
    exact statusAux_unverified_ne_working _ _ _

/-- C3 witness: a verified tracker with a failed endpoint followed by a
functioning one reports Working. -/
theorem status_working_witness :
    TrackerEntry.status entryFailedThenFunctioning = .Working :=
  (status_working_requires_verified entryFailedThenFunctioning).1
    rfl (by decide) (by decide)

/-- C4: when there is at least one endpoint and every endpoint reports
NotWorking, status() is NotWorking; and conversely status() is NotWorking
only when the endpoint list is non-empty and every endpoint reports
NotWorking. -/
theorem status_notWorking_iff_all_failing (t : TrackerEntry) :
    (t.endpoints ≠ [] → (∀ e ∈ t.endpoints, e.status = .NotWorking) →
      t.status = .NotWorking) ∧
    (t.status = .NotWorking →
      t.endpoints ≠ [] ∧ ∀ e ∈ t.endpoints, e.status = .NotWorking) := by
  constructor
  · intro hne hall
    unfold TrackerEntry.status
    apply statusAux_all_failed
    · intro e he
      exact ep_status_eq_notWorking_iff.mp (hall e he)
    · exact Nat.zero_add _
    · have := List.length_pos.mpr hne
      omega
  · intro hres
    unfold TrackerEntry.status at hres
    obtain ⟨hall, _, htot⟩ :=
      statusAux_notWorking_inv t.verified t.endpoints.length t.endpoints 0 (by omega) hres
    constructor
    · intro hnil
      exact htot (by rw [hnil]; rfl)
    · intro e he
      exact ep_status_eq_notWorking_iff.mpr (hall e he)

/-- C4 witness: two failed endpoints give NotWorking. -/
theorem status_notWorking_witness :
    TrackerEntry.status entryTwoErrors = .NotWorking :=
  (status_notWorking_iff_all_failing entryTwoErrors).1 (by decide) (by decide)

/-- C5: status() is NotContacted exactly when there are no endpoints, or no
endpoint is negotiating, there is no verified functioning endpoint, and not
every endpoint is failing; in particular an unverified tracker whose
endpoints all function reports NotContacted. -/
theorem status_notContacted_characterization :
    (∀ t : TrackerEntry,
      t.status = .NotContacted ↔
        (t.endpoints = [] ∨
          ((∀ e ∈ t.endpoints, e.status ≠ .Updating) ∧
            ¬(t.verified = true ∧ ∃ e ∈ t.endpoints, e.status = .Working) ∧
            ¬(∀ e ∈ t.endpoints, e.status = .NotWorking)))) ∧
    (∀ t : TrackerEntry, t.verified = false →
      (∀ e ∈ t.endpoints, e.status = .Working) → t.status = .NotContacted) := by
  constructor
  · intro t
    constructor
    · intro hres
      have hres2 : TrackerEntry.statusAux t.verified t.endpoints.length t.endpoints 0 =
          .NotContacted := hres
      by_cases hnil : t.endpoints = []
      · exact Or.inl hnil
      · right
        refine ⟨?_, ?_, ?_⟩
        · intro e he hst
          rcases statusAux_early_of_updating_mem t.verified t.endpoints.length t.endpoints 0
              ⟨e, he, ep_status_eq_updating_iff.mp hst⟩ with h | h
          · exact absurd (hres2.symm.trans h) (by decide)
          · exact absurd (hres2.symm.trans h) (by decide)
        · rintro ⟨hv, e, he, hst⟩
          rw [hv] at hres2
          rcases statusAux_early_of_verified_functioning t.endpoints.length t.endpoints 0
              ⟨e, he, ep_status_eq_working_iff.mp hst⟩ with h | h
          · exact absurd (hres2.symm.trans h) (by decide)
          · exact absurd (hres2.symm.trans h) (by decide)
        · intro hall
          have hnw : TrackerEntry.statusAux t.verified t.endpoints.length t.endpoints 0 =
              .NotWorking := by
            apply statusAux_all_failed
            · intro e he
              exact ep_status_eq_notWorking_iff.mp (hall e he)
            · exact Nat.zero_add _
            · have := List.length_pos.mpr hnil
              omega
          exact absurd (hres2.symm.trans hnw) (by decide)
    · intro h
      rcases h with hnil | ⟨hupd, hnw, hnall⟩
      · exact status_empty_endpoints t hnil
      · obtain ⟨e, he, hnst⟩ : ∃ e ∈ t.endpoints, e.status ≠ .NotWorking := by
          push_neg at hnall
          exact hnall
        have heu : e.updating = false := by
          cases hu : e.updating with
          | false => rfl
          | true => exact absurd (ep_status_of_updating hu) (hupd e he)
        have hew : e.isWorking = true := by
          cases hw : e.isWorking with
          | true => rfl
          | false => exact absurd (ep_status_of_failed heu hw) hnst
        have hv : t.verified = false := by
          cases hb : t.verified with
          | false => rfl
          | true => exact absurd ⟨hb, e, he, ep_status_of_working heu hew⟩ hnw
        unfold TrackerEntry.status
        rw [hv]
        apply statusAux_notContacted_of_unverified_success
        · intro x hx
          cases hu : x.updating with
          | false => rfl
          | true => exact absurd (ep_status_of_updating hu) (hupd x hx)
        · exact ⟨e, he, hew⟩
        · omega
  · intro t hv hall
    by_cases hnil : t.endpoints = []
    · exact status_empty_endpoints t hnil
    · obtain ⟨e, he⟩ := List.exists_mem_of_ne_nil t.endpoints hnil
      unfold TrackerEntry.status
      rw [hv]
      apply statusAux_notContacted_of_unverified_success
      · intro x hx
        exact (ep_status_eq_working_iff.mp (hall x hx)).1
      · exact ⟨e, he, (ep_status_eq_working_iff.mp (hall e he)).2⟩
      · omega

/-- C5 witness: an unverified tracker with one functioning endpoint reports
NotContacted, not Working. -/
theorem status_notContacted_witness :
    TrackerEntry.status entryUnverifiedFunctioning = .NotContacted :=
  status_notContacted_characterization.2 entryUnverifiedFunctioning rfl (by decide)

/-- C6 counterexample: a NotWorking tracker whose single endpoint has an
empty message but error text "timeout" returns ["timeout"] from messages(),
not the (empty) deduplicated list of trimmed endpoint messages, because of
the error-text fallback. -/
theorem messages_fallback_counterexample :
    TrackerEntry.messages entryErrorOnly ≠
      collectMessages (entryErrorOnly.endpoints.map (fun e => e.message)) := by
  decide

/-- C6 (amended): messages() equals the endpoint-order, first-occurrence
deduplicated list of trimmed non-empty message fields whenever that list is
non-empty or the aggregate status is not NotWorking (otherwise the error-text
fallback applies); and messages() never contains the empty string or a
duplicate. -/
theorem messages_primary_pass (t : TrackerEntry) :
    (collectMessages (t.endpoints.map (fun e => e.message)) ≠ [] ∨
        t.status ≠ .NotWorking →
      t.messages = collectMessages (t.endpoints.map (fun e => e.message))) ∧
    ("" ∉ t.messages ∧ t.messages.Nodup) := by
  have hm : t.endpoints.foldl (fun acc e => addMessage acc e.message) [] =
      (t.endpoints.map (fun e => e.message)).foldl addMessage [] :=
    (List.foldl_map (fun e : AnnounceEndpoint => e.message) addMessage t.endpoints []).symm
  have he : t.endpoints.foldl (fun acc e => addMessage acc e.lastErrorMessage) [] =
      (t.endpoints.map (fun e => e.lastErrorMessage)).foldl addMessage [] :=
    (List.foldl_map (fun e : AnnounceEndpoint => e.lastErrorMessage) addMessage
      t.endpoints []).symm
  have hcoll : t.endpoints.foldl (fun acc e => addMessage acc e.message) [] =
      collectMessages (t.endpoints.map (fun e => e.message)) := by
    rw [hm, foldl_addMessage_eq]
    rfl
  constructor
  · intro h
    unfold TrackerEntry.messages
    rw [if_neg]
    · exact hcoll
    · rintro ⟨h1, h2⟩
      rcases h with h | h
      · exact h (hcoll.symm.trans h1)
      · exact h h2
  · unfold TrackerEntry.messages
    by_cases hc : t.endpoints.foldl (fun acc e => addMessage acc e.message) [] = [] ∧
        t.status = .NotWorking
    · rw [if_pos hc, he]
      obtain ⟨hnd, hni⟩ := foldl_addMessage_clean
        (t.endpoints.map (fun e => e.lastErrorMessage)) [] List.nodup_nil (by simp)
      exact ⟨hni, hnd⟩
    · rw [if_neg hc, hm]
      obtain ⟨hnd, hni⟩ := foldl_addMessage_clean
        (t.endpoints.map (fun e => e.message)) [] List.nodup_nil (by simp)
      exact ⟨hni, hnd⟩

/-- C6 witness: a tracker with one padded message " alpha " returns exactly
the deduplicated trimmed message list. -/
theorem messages_primary_witness :
    TrackerEntry.messages entryPaddedMessage =
      collectMessages (entryPaddedMessage.endpoints.map (fun e => e.message)) :=
  (messages_primary_pass entryPaddedMessage).1 (Or.inl (by decide))

/-- C7: when every endpoint message is empty after trimming, messages()
equals the deduplicated trimmed error-text list if status() is NotWorking,
and is empty otherwise. -/
theorem messages_error_fallback (t : TrackerEntry)
    (hmsg : ∀ e ∈ t.endpoints, qtrim e.message = "") :
    (t.status = .NotWorking →
      t.messages = collectMessages (t.endpoints.map (fun e => e.lastErrorMessage))) ∧
    (t.status ≠ .NotWorking → t.messages = []) := by
  have hmfold : t.endpoints.foldl (fun acc e => addMessage acc e.message) [] = [] := by
    rw [← List.foldl_map (fun e : AnnounceEndpoint => e.message) addMessage t.endpoints []]
    rw [foldl_addMessage_eq]
    have hfil : ((t.endpoints.map (fun e => e.message)).map qtrim).filter
        (fun m => m ≠ "") = [] := by
      rw [List.filter_eq_nil_iff]
      intro m hmem
      rcases List.mem_map.mp hmem with ⟨m0, hm0, rfl⟩
      rcases List.mem_map.mp hm0 with ⟨e, hee, rfl⟩
      simp [hmsg e hee]
    rw [hfil]
    rfl
  have herr : t.endpoints.foldl (fun acc e => addMessage acc e.lastErrorMessage) [] =
      collectMessages (t.endpoints.map (fun e => e.lastErrorMessage)) := by
    rw [← List.foldl_map (fun e : AnnounceEndpoint => e.lastErrorMessage) addMessage
      t.endpoints []]
    rw [foldl_addMessage_eq]
    rfl
  constructor
  · intro hst
    unfold TrackerEntry.messages
    rw [if_pos ⟨hmfold, hst⟩]
    exact herr
  · intro hst
    unfold TrackerEntry.messages
    rw [if_neg (fun hcond => hst hcond.2)]
    exact hmfold

/-- C7 witness: the specification scenario with two failing endpoints whose
error texts read "timeout" and "refused". -/
theorem messages_error_fallback_witness :
    TrackerEntry.messages entryTwoErrors =
      collectMessages (entryTwoErrors.endpoints.map (fun e => e.lastErrorMessage)) :=
  (messages_error_fallback entryTwoErrors (by decide)).1 (by decide)

/-- C8: each of numSeeds, numLeeches and numDownloaded is the maximum of the
corresponding endpoint counter with the -1 sentinel as bottom: the result is
at least -1, dominates every endpoint counter, is attained at -1 or at some
endpoint, and is -1 when every counter is -1 (hence also on an empty endpoint
list); the counters {-1, 3, -1} give 3 and {-1, -1} give -1. -/
theorem counters_are_sentinel_max :
    (∀ t : TrackerEntry,
      (-1 ≤ t.numSeeds ∧ (∀ e ∈ t.endpoints, e.scrapeComplete ≤ t.numSeeds) ∧
        (t.numSeeds = -1 ∨ ∃ e ∈ t.endpoints, t.numSeeds = e.scrapeComplete) ∧
        ((∀ e ∈ t.endpoints, e.scrapeComplete = -1) → t.numSeeds = -1)) ∧
      (-1 ≤ t.numLeeches ∧ (∀ e ∈ t.endpoints, e.scrapeIncomplete ≤ t.numLeeches) ∧
        (t.numLeeches = -1 ∨ ∃ e ∈ t.endpoints, t.numLeeches = e.scrapeIncomplete) ∧
        ((∀ e ∈ t.endpoints, e.scrapeIncomplete = -1) → t.numLeeches = -1)) ∧
      (-1 ≤ t.numDownloaded ∧
        (∀ e ∈ t.endpoints, e.scrapeDownloaded ≤ t.numDownloaded) ∧
        (t.numDownloaded = -1 ∨ ∃ e ∈ t.endpoints, t.numDownloaded = e.scrapeDownloaded) ∧
        ((∀ e ∈ t.endpoints, e.scrapeDownloaded = -1) → t.numDownloaded = -1))) ∧
    TrackerEntry.numSeeds entryCountsKnown = 3 ∧
    TrackerEntry.numSeeds entryCountsUnknown = -1 := by
  refine ⟨?_, by decide, by decide⟩
  intro t
  obtain ⟨s1, s2, s3⟩ := foldl_counter_spec (fun e => e.scrapeComplete) t.endpoints
  obtain ⟨l1, l2, l3⟩ := foldl_counter_spec (fun e => e.scrapeIncomplete) t.endpoints
  obtain ⟨d1, d2, d3⟩ := foldl_counter_spec (fun e => e.scrapeDownloaded) t.endpoints
  refine ⟨⟨s1, s2, s3, ?_⟩, ⟨l1, l2, l3, ?_⟩, ⟨d1, d2, d3, ?_⟩⟩
  · intro hall
    rcases s3 with h | ⟨e, hee, hv⟩
    · exact h
    · exact hv.trans (hall e hee)
  · intro hall
    rcases l3 with h | ⟨e, hee, hv⟩
    · exact h
    · exact hv.trans (hall e hee)
  · intro hall
    rcases d3 with h | ⟨e, hee, hv⟩
    · exact h
    · exact hv.trans (hall e hee)

/-- C8 witness: the all-unknown tracker evaluates to the sentinel through the
all-sentinel clause of the theorem. -/
theorem counters_max_witness :
    TrackerEntry.numSeeds entryCountsUnknown = -1 :=
  ((counters_are_sentinel_max.1 entryCountsUnknown).1.2.2.2) (by decide)
